import Mathlib

/-!
Verification of the FullStack user CRUD backend.

The embedding models `src/main.py` (route handlers) and the database layer it
drives through SQLAlchemy (`src/db.py`, and the ORM models imported from
`models.py`).  The database session of one request is modelled as a pure
function from the list of persisted `User` rows to a new list together with
either a successful response value or an `HTTPException`-style error.

Password hashing (`pwd_context.hash` / `pwd_context.verify` from passlib) is a
call into an external library: the handlers are parametrised by an arbitrary
hash function `hash : String → String` and verifier
`verify : String → String → Bool`, so every theorem below holds for the real
bcrypt functions in particular.
-/

namespace FullStack

/-- Modelled from the spec: the persisted `User` record.  `models.py` is not in
`src/`; the glossary describes a User as "a persisted record with username,
email, and hashed password", and the routes expose its integer primary key as
`user_id`. -/
structure User where
  id : Nat
  username : String
  email : String
  password : String
  deriving Repr, DecidableEq

/-- Modelled from the spec: the persisted `Itinerary` record.  `models.py` is
not in `src/`; the glossary describes it as "a persisted record describing a
(currently unused) AI-generated travel plan, tied to destination/date/budget
inputs", matching the fields used by the commented-out `generate_itinerary`
route (the float `budget` is represented abstractly by an integer, no
arithmetic is ever performed on it). -/
structure Itinerary where
  destination : String
  interests : String
  start_date : String
  end_date : String
  budget : Int
  generated_itinerary : String
  deriving Repr, DecidableEq

/-- The rows of the `users` table, in insertion order. -/
abbrev DB := List User

/-- An `HTTPException(status_code=..., detail=...)` raised by a handler, or an
error surfaced by the database layer. -/
structure Err where
  status : Nat
  detail : String
  deriving Repr, DecidableEq

/-- The `UserUpdate` pydantic model of `src/main.py`: every field optional,
defaulting to `None`. -/
structure UserUpdate where
  username : Option String := none
  email : Option String := none
  password : Option String := none
  deriving Repr, DecidableEq

/-- Uniqueness of the `users` table: no two rows share a username and no two
share an email. -/
def uniqueDB (db : DB) : Prop :=
  (db.map User.username).Nodup ∧ (db.map User.email).Nodup

instance (db : DB) : Decidable (uniqueDB db) := by
  unfold uniqueDB; infer_instance

/-- Modelled from the spec: `db.commit()` against the database layer.
`models.py` and the engine configuration are not in `src/`; the spec states
"basic uniqueness checks already enforced by the database layer", so a commit
whose resulting table would violate uniqueness of username or email is
rejected (SQLAlchemy `IntegrityError`, surfacing as HTTP 500) and leaves the
persisted records unchanged; any other commit persists the new table. -/
def dbCommit (db : DB) : Except Err DB :=
  if uniqueDB db then .ok db else .error ⟨500, "IntegrityError"⟩

/-- Modelled from the spec: the autoincrement integer primary key of the
`users` table (`models.py` is not in `src/`): a fresh id strictly larger than
every existing one. -/
def nextId (db : DB) : Nat :=
  db.foldr (fun u m => max u.id m) 0 + 1

/-- `db.query(User).filter(cond).first()` is `List.find?` on the rows. -/
def queryFirst (p : User → Bool) (db : DB) : Option User :=
  db.find? p

/-- Replace the first row satisfying `p` by its image under `f`: the SQLAlchemy
pattern of mutating the object returned by `.first()` and committing. -/
def updateFirst (p : α → Bool) (f : α → α) : List α → List α
  | [] => []
  | x :: xs => if p x then f x :: xs else x :: updateFirst p f xs

/-- `POST /register` (`register_user` in `src/main.py`): reject with
400 "Username already taken" if a row with the username exists, else insert a
new row whose password is `hash password` and commit. -/
def register_user (hash : String → String) (username password email : String)
    (db : DB) : Except Err (DB × String) :=
  match queryFirst (fun u => u.username == username) db with
  | some _ => .error ⟨400, "Username already taken"⟩
  | none =>
      let hashed_password := hash password
      let new_user : User :=
        { id := nextId db, username := username, email := email,
          password := hashed_password }
      match dbCommit (db ++ [new_user]) with
      | .ok db2 => .ok (db2, "User registered successfully")
      | .error e => .error e

/-- `POST /login` (`login_user` in `src/main.py`): look up the first row with
the given email; 401 "Invalid credentials" if none exists or the password does
not verify against the stored hash, else return the message and the user id. -/
def login_user (verify : String → String → Bool) (email password : String)
    (db : DB) : Except Err (String × Nat) :=
  match queryFirst (fun u => u.email == email) db with
  | none => .error ⟨401, "Invalid credentials"⟩
  | some db_user =>
      if verify password db_user.password then
        .ok ("Login successful", db_user.id)
      else
        .error ⟨401, "Invalid credentials"⟩

/-- A FastAPI response as far as the modelled routes observe it: a status
code, a JSON body message, and the set-cookie deletion headers it carries. -/
structure Response where
  status : Nat
  message : String
  deletedCookies : List String
  deriving Repr, DecidableEq

/-- `RedirectResponse(url=...)`: a 307 redirect carrying no body message. -/
def RedirectResponse (url : String) : Response :=
  { status := 307, message := url, deletedCookies := [] }

/-- `JSONResponse(content=..., status_code=...)`. -/
def JSONResponse (status : Nat) (message : String) : Response :=
  { status := status, message := message, deletedCookies := [] }

/-- `response.delete_cookie(name)`: the response gains the header deleting the
named cookie. -/
def delete_cookie (r : Response) (name : String) : Response :=
  { r with deletedCookies := r.deletedCookies ++ [name] }

/-- `POST /logout` (`logout_user` in `src/main.py`): builds a redirect
response, deletes the `access_token` cookie on it, then returns a fresh
`JSONResponse` — the local `response` is discarded, exactly as in the source. -/
def logout_user (db : DB) : DB × Response :=
  let response := delete_cookie (RedirectResponse "/Blueprint") "access_token"
  let _ := response
  (db, JSONResponse 200 "Logged out successfully")

/-- `GET /users` (`get_all_users`): all rows, database unchanged. -/
def get_all_users (db : DB) : List User :=
  db

/-- `GET /users/{user_id}` (`get_user` in `src/main.py`): the first row with
the id, or 404 "User not found".  FastAPI only invokes the handler for
`user_id > 0` (`Path(..., gt=0)`). -/
def get_user (user_id : Nat) (db : DB) : Except Err User :=
  match queryFirst (fun u => u.id == user_id) db with
  | none => .error ⟨404, "User not found"⟩
  | some user => .ok user

/-- The conditional field assignment of `PUT /users/{user_id}`: Python
truthiness (`if user.username:`) skips both `None` and the empty string; a
supplied password is stored hashed. -/
def applyPut (hash : String → String) (db_user : User) (user : UserUpdate) :
    User :=
  let u1 := match user.username with
    | some s => if s == "" then db_user else { db_user with username := s }
    | none => db_user
  let u2 := match user.email with
    | some s => if s == "" then u1 else { u1 with email := s }
    | none => u1
  match user.password with
  | some s => if s == "" then u2 else { u2 with password := hash s }
  | none => u2

/-- The conditional field assignment of `PATCH /users/{user_id}`:
`if user.username is not None:` applies every supplied value, the empty string
included; a supplied password is stored hashed. -/
def applyPatch (hash : String → String) (db_user : User) (user : UserUpdate) :
    User :=
  let u1 := match user.username with
    | some s => { db_user with username := s }
    | none => db_user
  let u2 := match user.email with
    | some s => { u1 with email := s }
    | none => u1
  match user.password with
  | some s => { u2 with password := hash s }
  | none => u2

/-- `PUT /users/{user_id}` (`update_user` in `src/main.py`): 404 if no row has
the id, else conditionally assign the supplied truthy fields on the found row
and commit; returns the refreshed row. -/
def update_user (hash : String → String) (user_id : Nat) (user : UserUpdate)
    (db : DB) : Except Err (DB × User) :=
  match queryFirst (fun u => u.id == user_id) db with
  | none => .error ⟨404, "User not found"⟩
  | some db_user =>
      match dbCommit
          (updateFirst (fun v => v.id == user_id)
            (fun v => applyPut hash v user) db) with
      | .ok db2 => .ok (db2, applyPut hash db_user user)
      | .error e => .error e

/-- `PATCH /users/{user_id}` (`partial_update_user` in `src/main.py`): 404 if
no row has the id, else assign every non-`None` supplied field on the found
row and commit; returns the refreshed row. -/
def partial_update_user (hash : String → String) (user_id : Nat)
    (user : UserUpdate) (db : DB) : Except Err (DB × User) :=
  match queryFirst (fun u => u.id == user_id) db with
  | none => .error ⟨404, "User not found"⟩
  | some db_user =>
      match dbCommit
          (updateFirst (fun v => v.id == user_id)
            (fun v => applyPatch hash v user) db) with
      | .ok db2 => .ok (db2, applyPatch hash db_user user)
      | .error e => .error e

/-- `DELETE /users/{user_id}` (`delete_user` in `src/main.py`): 404 if no row
has the id, else delete the found row and commit. -/
def delete_user (user_id : Nat) (db : DB) : Except Err (DB × String) :=
  match queryFirst (fun u => u.id == user_id) db with
  | none => .error ⟨404, "User not found"⟩
  | some _ =>
      .ok (List.eraseP (fun v => v.id == user_id) db,
        "User deleted successfully")

/-- One request to any route of the application that is not commented out. -/
inductive Op where
  | home
  | register (username password email : String)
  | login (email password : String)
  | logout
  | getUsers
  | getUser (user_id : Nat)
  | put (user_id : Nat) (user : UserUpdate)
  | patch (user_id : Nat) (user : UserUpdate)
  | delete (user_id : Nat)
  deriving Repr, DecidableEq

/-- The `users` table after one request: the committed table on success, the
unchanged table when the handler raises (handlers only commit at their very
end, so a raised `HTTPException` or a rejected commit leaves the table as it
was).  The `login` outcome depends on the verifier but never changes the
table, so `runOp` needs only the hash function. -/
def runOp (hash : String → String) (db : DB) : Op → DB
  | .home => db
  | .register username password email =>
      match register_user hash username password email db with
      | .ok (db2, _) => db2
      | .error _ => db
  | .login _ _ => db
  | .logout => (logout_user db).1
  | .getUsers => db
  | .getUser _ => db
  | .put user_id user =>
      match update_user hash user_id user db with
      | .ok (db2, _) => db2
      | .error _ => db
  | .patch user_id user =>
      match partial_update_user hash user_id user db with
      | .ok (db2, _) => db2
      | .error _ => db
  | .delete user_id =>
      match delete_user user_id db with
      | .ok (db2, _) => db2
      | .error _ => db

/-- The `users` table after a sequence of requests. -/
def runOps (hash : String → String) (ops : List Op) (db : DB) : DB :=
  ops.foldl (runOp hash) db

/-- The whole persisted state: the `users` table and the `itineraries` table. -/
structure AppState where
  users : DB
  itineraries : List Itinerary
  deriving Repr, DecidableEq

/-- One request against the whole persisted state.  Every live route reads and
writes only the `users` table; the only route that would touch `itineraries`
(`generate_itinerary`) is commented out in `src/main.py`. -/
def appStep (hash : String → String) (s : AppState) (op : Op) : AppState :=
  { s with users := runOp hash s.users op }

/-! ### Basic lemmas about the database layer and list helpers -/

theorem dbCommit_ok {db db' : DB} (h : dbCommit db = .ok db') :
    db' = db ∧ uniqueDB db := by
  unfold dbCommit at h
  split at h
  · cases h; exact ⟨rfl, by assumption⟩
  · exact Except.noConfusion h

theorem dbCommit_of_unique {db : DB} (h : uniqueDB db) : dbCommit db = .ok db := by
  unfold dbCommit
  exact if_pos h

theorem dbCommit_of_not_unique {db : DB} (h : ¬ uniqueDB db) :
    dbCommit db = .error ⟨500, "IntegrityError"⟩ := by
  unfold dbCommit
  exact if_neg h

theorem mem_updateFirst {p : α → Bool} {f : α → α} {l : List α} {v : α}
    (h : v ∈ updateFirst p f l) : v ∈ l ∨ ∃ u, u ∈ l ∧ v = f u := by
  induction l with
  | nil => cases h
  | cons x xs ih =>
    unfold updateFirst at h
    split at h
    · rcases List.mem_cons.mp h with h1 | h1
      · exact Or.inr ⟨x, List.mem_cons_self x xs, h1⟩
      · exact Or.inl (List.mem_cons_of_mem _ h1)
    · rcases List.mem_cons.mp h with h1 | h1
      · exact Or.inl (h1 ▸ List.mem_cons_self x xs)
      · rcases ih h1 with h2 | ⟨u, hu, hv⟩
        · exact Or.inl (List.mem_cons_of_mem _ h2)
        · exact Or.inr ⟨u, List.mem_cons_of_mem _ hu, hv⟩

theorem map_if_eq_self {uid : Nat} {f : User → User} {xs : DB}
    (h : ∀ v ∈ xs, v.id ≠ uid) :
    xs.map (fun v => if v.id == uid then f v else v) = xs := by
  induction xs with
  | nil => rfl
  | cons x xs ih =>
    rw [List.map_cons, if_neg, ih]
    · intro v hv; exact h v (List.mem_cons_of_mem _ hv)
    · simpa using h x (List.mem_cons_self x xs)

theorem updateFirst_eq_map {f : User → User} {uid : Nat} {l : DB}
    (h : (l.map User.id).Nodup) :
    updateFirst (fun v => v.id == uid) f l
      = l.map (fun v => if v.id == uid then f v else v) := by
  induction l with
  | nil => rfl
  | cons x xs ih =>
    rw [List.map_cons, List.nodup_cons] at h
    unfold updateFirst
    by_cases hx : x.id = uid
    · rw [if_pos (by simpa using hx), List.map_cons, if_pos (by simpa using hx)]
      have hxs : ∀ v ∈ xs, v.id ≠ uid := by
        intro v hv hveq
        exact h.1 (hx ▸ hveq ▸ List.mem_map_of_mem User.id hv)
      rw [map_if_eq_self hxs]
    · rw [if_neg (by simpa using hx), List.map_cons, if_neg (by simpa using hx),
        ih h.2]

theorem eraseP_eq_filter {uid : Nat} {l : DB}
    (h : (l.map User.id).Nodup) :
    List.eraseP (fun v => v.id == uid) l
      = l.filter (fun v => !(v.id == uid)) := by
  induction l with
  | nil => rfl
  | cons x xs ih =>
    rw [List.map_cons, List.nodup_cons] at h
    by_cases hx : x.id = uid
    · rw [List.eraseP_cons_of_pos (by simpa using hx),
        List.filter_cons_of_neg (by simpa using hx)]
      symm
      rw [List.filter_eq_self]
      intro v hv
      simp only [Bool.not_eq_true', beq_eq_false_iff_ne]
      intro hveq
      exact h.1 (hx ▸ hveq ▸ List.mem_map_of_mem User.id hv)
    · rw [List.eraseP_cons_of_neg (by simpa using hx),
        List.filter_cons_of_pos (by simpa using hx), ih h.2]

/-- With pairwise distinct keys, `.filter(key == k).first()` finds exactly the
member whose key is `k`. -/
theorem find?_key_of_nodup {β : Type} [BEq β] [LawfulBEq β] (key : User → β)
    {l : DB} {u : User} (h : (l.map key).Nodup) (hu : u ∈ l) :
    l.find? (fun v => key v == key u) = some u := by
  induction l with
  | nil => cases hu
  | cons x xs ih =>
    rw [List.map_cons, List.nodup_cons] at h
    by_cases hx : key x = key u
    · rw [List.find?_cons_of_pos _ (by simpa using hx)]
      rcases List.mem_cons.mp hu with rfl | hmem
      · rfl
      · exact absurd (hx ▸ List.mem_map_of_mem key hmem) h.1
    · rw [List.find?_cons_of_neg _ (by simpa using hx)]
      rcases List.mem_cons.mp hu with rfl | hmem
      · exact absurd rfl hx
      · exact ih h.2 hmem

/-! ### Field-level behaviour of the conditional assignments -/

theorem applyPut_id (hash : String → String) (u : User) (p : UserUpdate) :
    (applyPut hash u p).id = u.id := by
  unfold applyPut
  cases p.username <;> cases p.email <;> cases p.password <;>
    dsimp only <;> split_ifs <;> rfl

theorem applyPatch_id (hash : String → String) (u : User) (p : UserUpdate) :
    (applyPatch hash u p).id = u.id := by
  unfold applyPatch
  cases p.username <;> cases p.email <;> cases p.password <;> rfl

theorem applyPut_username (hash : String → String) (u : User) (p : UserUpdate) :
    (applyPut hash u p).username =
      (match p.username with
        | some s => if s == "" then u.username else s
        | none => u.username) := by
  unfold applyPut
  cases p.username <;> cases p.email <;> cases p.password <;>
    dsimp only <;> split_ifs <;> rfl

theorem applyPut_email (hash : String → String) (u : User) (p : UserUpdate) :
    (applyPut hash u p).email =
      (match p.email with
        | some s => if s == "" then u.email else s
        | none => u.email) := by
  unfold applyPut
  cases p.username <;> cases p.email <;> cases p.password <;>
    dsimp only <;> split_ifs <;> rfl

theorem applyPut_password (hash : String → String) (u : User) (p : UserUpdate) :
    (applyPut hash u p).password =
      (match p.password with
        | some s => if s == "" then u.password else hash s
        | none => u.password) := by
  unfold applyPut
  cases p.username <;> cases p.email <;> cases p.password <;>
    dsimp only <;> split_ifs <;> rfl

theorem applyPatch_username (hash : String → String) (u : User) (p : UserUpdate) :
    (applyPatch hash u p).username =
      (match p.username with
        | some s => s
        | none => u.username) := by
  unfold applyPatch
  cases p.username <;> cases p.email <;> cases p.password <;> rfl

theorem applyPatch_email (hash : String → String) (u : User) (p : UserUpdate) :
    (applyPatch hash u p).email =
      (match p.email with
        | some s => s
        | none => u.email) := by
  unfold applyPatch
  cases p.username <;> cases p.email <;> cases p.password <;> rfl

theorem applyPatch_password (hash : String → String) (u : User) (p : UserUpdate) :
    (applyPatch hash u p).password =
      (match p.password with
        | some s => hash s
        | none => u.password) := by
  unfold applyPatch
  cases p.username <;> cases p.email <;> cases p.password <;> rfl

theorem applyPut_password_or (hash : String → String) (u : User)
    (p : UserUpdate) :
    (applyPut hash u p).password = u.password ∨
      ∃ s, (applyPut hash u p).password = hash s := by
  rw [applyPut_password]
  cases p.password with
  | none => exact Or.inl rfl
  | some s =>
    dsimp only
    split
    · exact Or.inl rfl
    · exact Or.inr ⟨s, rfl⟩

theorem applyPatch_password_or (hash : String → String) (u : User)
    (p : UserUpdate) :
    (applyPatch hash u p).password = u.password ∨
      ∃ s, (applyPatch hash u p).password = hash s := by
  rw [applyPatch_password]
  cases p.password with
  | none => exact Or.inl rfl
  | some s => exact Or.inr ⟨s, rfl⟩

/-- When every supplied field is a non-empty string, Python truthiness and the
`is not None` test agree, so the PUT and PATCH assignments coincide. -/
theorem applyPut_eq_applyPatch (hash : String → String) (u : User)
    (p : UserUpdate) (hu : p.username ≠ some "") (he : p.email ≠ some "")
    (hp : p.password ≠ some "") :
    applyPut hash u p = applyPatch hash u p := by
  unfold applyPut applyPatch
  cases hus : p.username <;> cases hes : p.email <;> cases hps : p.password <;>
      dsimp only <;>
    repeat'
      rw [if_neg (by simp only [beq_iff_eq]; rintro rfl; simp_all)]

/-! ### What a successful handler run did to the table -/

theorem register_user_ok {hash : String → String}
    {username password email : String} {db db2 : DB} {msg : String}
    (h : register_user hash username password email db = .ok (db2, msg)) :
    db2 = db ++ [⟨nextId db, username, email, hash password⟩] ∧
      msg = "User registered successfully" ∧ uniqueDB db2 ∧
      queryFirst (fun u => u.username == username) db = none := by
  unfold register_user at h
  cases hq : queryFirst (fun u => u.username == username) db with
  | some u => rw [hq] at h; exact Except.noConfusion h
  | none =>
    rw [hq] at h
    dsimp only at h
    cases hc : dbCommit (db ++ [⟨nextId db, username, email, hash password⟩]) with
    | error e => rw [hc] at h; exact Except.noConfusion h
    | ok db' =>
      rw [hc] at h
      obtain ⟨h1, h2⟩ := dbCommit_ok hc
      injection h with h
      injection h with h3 h4
      exact ⟨h3 ▸ h1, h4.symm, h3 ▸ h1 ▸ h2, rfl⟩

theorem update_user_ok {hash : String → String} {user_id : Nat}
    {p : UserUpdate} {db db2 : DB} {ret : User}
    (h : update_user hash user_id p db = .ok (db2, ret)) :
    db2 = updateFirst (fun v => v.id == user_id)
        (fun v => applyPut hash v p) db ∧
      uniqueDB db2 ∧
      ∃ u, queryFirst (fun v => v.id == user_id) db = some u ∧
        ret = applyPut hash u p := by
  unfold update_user at h
  cases hq : queryFirst (fun v => v.id == user_id) db with
  | none => rw [hq] at h; exact Except.noConfusion h
  | some u =>
    rw [hq] at h
    dsimp only at h
    cases hc : dbCommit (updateFirst (fun v => v.id == user_id)
        (fun v => applyPut hash v p) db) with
    | error e => rw [hc] at h; exact Except.noConfusion h
    | ok db' =>
      rw [hc] at h
      obtain ⟨h1, h2⟩ := dbCommit_ok hc
      injection h with h
      injection h with h3 h4
      exact ⟨h3 ▸ h1, h3 ▸ h1 ▸ h2, u, rfl, h4.symm⟩

theorem partial_update_user_ok {hash : String → String} {user_id : Nat}
    {p : UserUpdate} {db db2 : DB} {ret : User}
    (h : partial_update_user hash user_id p db = .ok (db2, ret)) :
    db2 = updateFirst (fun v => v.id == user_id)
        (fun v => applyPatch hash v p) db ∧
      uniqueDB db2 ∧
      ∃ u, queryFirst (fun v => v.id == user_id) db = some u ∧
        ret = applyPatch hash u p := by
  unfold partial_update_user at h
  cases hq : queryFirst (fun v => v.id == user_id) db with
  | none => rw [hq] at h; exact Except.noConfusion h
  | some u =>
    rw [hq] at h
    dsimp only at h
    cases hc : dbCommit (updateFirst (fun v => v.id == user_id)
        (fun v => applyPatch hash v p) db) with
    | error e => rw [hc] at h; exact Except.noConfusion h
    | ok db' =>
      rw [hc] at h
      obtain ⟨h1, h2⟩ := dbCommit_ok hc
      injection h with h
      injection h with h3 h4
      exact ⟨h3 ▸ h1, h3 ▸ h1 ▸ h2, u, rfl, h4.symm⟩

theorem delete_user_ok {user_id : Nat} {db db2 : DB} {msg : String}
    (h : delete_user user_id db = .ok (db2, msg)) :
    db2 = List.eraseP (fun v => v.id == user_id) db ∧
      msg = "User deleted successfully" ∧
      ∃ u, queryFirst (fun v => v.id == user_id) db = some u := by
  unfold delete_user at h
  cases hq : queryFirst (fun v => v.id == user_id) db with
  | none => rw [hq] at h; exact Except.noConfusion h
  | some u =>
    rw [hq] at h
    injection h with h
    injection h with h3 h4
    exact ⟨h3.symm, h4.symm, u, rfl⟩

/-! ### The two reachable-state invariants -/

/-- Every persisted password is the hash of some plaintext. -/
def HashedDB (hash : String → String) (db : DB) : Prop :=
  ∀ u ∈ db, ∃ p, u.password = hash p

theorem runOp_hashed (hash : String → String) (db : DB) (op : Op)
    (h : HashedDB hash db) : HashedDB hash (runOp hash db op) := by
  cases op with
  | home => exact h
  | login e p => exact h
  | logout => exact h
  | getUsers => exact h
  | getUser i => exact h
  | register username password email =>
    cases hr : register_user hash username password email db with
    | error e => simpa only [runOp, hr] using h
    | ok v =>
      obtain ⟨v1, v2⟩ := v
      obtain ⟨rfl, -, -, -⟩ := register_user_ok hr
      simp only [runOp, hr]
      intro u hu
      rcases List.mem_append.mp hu with h1 | h1
      · exact h u h1
      · rcases List.mem_singleton.mp h1 with rfl
        exact ⟨password, rfl⟩
  | put user_id p =>
    cases hr : update_user hash user_id p db with
    | error e => simpa only [runOp, hr] using h
    | ok v =>
      obtain ⟨v1, v2⟩ := v
      obtain ⟨rfl, -, -⟩ := update_user_ok hr
      simp only [runOp, hr]
      intro u hu
      rcases mem_updateFirst hu with h1 | ⟨w, hw, rfl⟩
      · exact h u h1
      · rcases applyPut_password_or hash w p with hp | ⟨s, hp⟩
        · rw [hp]; exact h w hw
        · exact ⟨s, hp⟩
  | patch user_id p =>
    cases hr : partial_update_user hash user_id p db with
    | error e => simpa only [runOp, hr] using h
    | ok v =>
      obtain ⟨v1, v2⟩ := v
      obtain ⟨rfl, -, -⟩ := partial_update_user_ok hr
      simp only [runOp, hr]
      intro u hu
      rcases mem_updateFirst hu with h1 | ⟨w, hw, rfl⟩
      · exact h u h1
      · rcases applyPatch_password_or hash w p with hp | ⟨s, hp⟩
        · rw [hp]; exact h w hw
        · exact ⟨s, hp⟩
  | delete user_id =>
    cases hr : delete_user user_id db with
    | error e => simpa only [runOp, hr] using h
    | ok v =>
      obtain ⟨v1, v2⟩ := v
      obtain ⟨rfl, -, -⟩ := delete_user_ok hr
      simp only [runOp, hr]
      intro u hu
      exact h u ((List.eraseP_sublist db).subset hu)

theorem runOp_unique (hash : String → String) (db : DB) (op : Op)
    (h : uniqueDB db) : uniqueDB (runOp hash db op) := by
  cases op with
  | home => exact h
  | login e p => exact h
  | logout => exact h
  | getUsers => exact h
  | getUser i => exact h
  | register username password email =>
    cases hr : register_user hash username password email db with
    | error e => simpa only [runOp, hr] using h
    | ok v =>
      obtain ⟨v1, v2⟩ := v
      obtain ⟨rfl, -, hu, -⟩ := register_user_ok hr
      simpa only [runOp, hr] using hu
  | put user_id p =>
    cases hr : update_user hash user_id p db with
    | error e => simpa only [runOp, hr] using h
    | ok v =>
      obtain ⟨v1, v2⟩ := v
      obtain ⟨rfl, hu, -⟩ := update_user_ok hr
      simpa only [runOp, hr] using hu
  | patch user_id p =>
    cases hr : partial_update_user hash user_id p db with
    | error e => simpa only [runOp, hr] using h
    | ok v =>
      obtain ⟨v1, v2⟩ := v
      obtain ⟨rfl, hu, -⟩ := partial_update_user_ok hr
      simpa only [runOp, hr] using hu
  | delete user_id =>
    cases hr : delete_user user_id db with
    | error e => simpa only [runOp, hr] using h
    | ok v =>
      obtain ⟨v1, v2⟩ := v
      obtain ⟨rfl, -, -⟩ := delete_user_ok hr
      simp only [runOp, hr]
      exact ⟨List.Nodup.sublist ((List.eraseP_sublist db).map User.username) h.1,
        List.Nodup.sublist ((List.eraseP_sublist db).map User.email) h.2⟩

theorem dbCommit_error {db : DB} {e : Err} (h : dbCommit db = .error e) :
    e = ⟨500, "IntegrityError"⟩ ∧ ¬ uniqueDB db := by
  unfold dbCommit at h
  split at h
  · exact Except.noConfusion h
  · injection h with h
    exact ⟨h.symm, by assumption⟩

theorem runOp_register_err {hash : String → String}
    {username password email : String} {db : DB} {e : Err}
    (h : register_user hash username password email db = .error e) :
    runOp hash db (.register username password email) = db := by
  simp only [runOp, h]

theorem runOp_put_err {hash : String → String} {user_id : Nat}
    {p : UserUpdate} {db : DB} {e : Err}
    (h : update_user hash user_id p db = .error e) :
    runOp hash db (.put user_id p) = db := by
  simp only [runOp, h]

theorem runOp_patch_err {hash : String → String} {user_id : Nat}
    {p : UserUpdate} {db : DB} {e : Err}
    (h : partial_update_user hash user_id p db = .error e) :
    runOp hash db (.patch user_id p) = db := by
  simp only [runOp, h]

theorem runOp_delete_err {user_id : Nat} {db : DB} {e : Err}
    {hash : String → String} (h : delete_user user_id db = .error e) :
    runOp hash db (.delete user_id) = db := by
  simp only [runOp, h]

theorem nodup_append_singleton {α : Type} {l : List α} {a : α} :
    (l ++ [a]).Nodup ↔ l.Nodup ∧ a ∉ l := by
  rw [List.nodup_append]
  constructor
  · rintro ⟨h1, -, h3⟩
    exact ⟨h1, fun ha => h3 ha (List.mem_singleton_self a)⟩
  · rintro ⟨h1, h2⟩
    refine ⟨h1, List.nodup_singleton a, ?_⟩
    intro x hx hxa
    rcases List.mem_singleton.mp hxa with rfl
    exact h2 hx

theorem runOps_hashed (hash : String → String) (ops : List Op) :
    ∀ db, HashedDB hash db → HashedDB hash (runOps hash ops db) := by
  induction ops with
  | nil => exact fun db h => h
  | cons op ops ih =>
    exact fun db h => ih (runOp hash db op) (runOp_hashed hash db op h)

theorem runOps_unique (hash : String → String) (ops : List Op) :
    ∀ db, uniqueDB db → uniqueDB (runOps hash ops db) := by
  induction ops with
  | nil => exact fun db h => h
  | cons op ops ih =>
    exact fun db h => ih (runOp hash db op) (runOp_unique hash db op h)

/-- A concrete stand-in for the (salt-fixed) bcrypt hash, used to instantiate
the parametric theorems on executable inputs. -/
def exHash (s : String) : String :=
  String.append "bcrypt$" s

/-- The matching stand-in verifier: accepts exactly the hash of the plaintext. -/
def exVerify (plain hashed : String) : Bool :=
  exHash plain == hashed

/-! ### The claims -/

/-- C1: starting from the empty database, after any sequence of requests every
persisted `User` record's password field is `hash p` for some plaintext `p` —
the handlers only ever store `get_password_hash` images, never the plaintext. -/
theorem c1_persisted_passwords_are_hashed (hash : String → String)
    (ops : List Op) (u : User) (hu : u ∈ runOps hash ops []) :
    ∃ p, u.password = hash p :=
  runOps_hashed hash ops [] (fun v hv => absurd hv (List.not_mem_nil v)) u hu

theorem c1_witness :
    (⟨1, "alice", "a@x.com", exHash "pw"⟩ : User)
        ∈ runOps exHash [Op.register "alice" "pw" "a@x.com"] [] ∧
      ∃ p, (⟨1, "alice", "a@x.com", exHash "pw"⟩ : User).password = exHash p := by
  have hmem : (⟨1, "alice", "a@x.com", exHash "pw"⟩ : User)
      ∈ runOps exHash [Op.register "alice" "pw" "a@x.com"] [] := by decide
  exact ⟨hmem,
    c1_persisted_passwords_are_hashed exHash
      [Op.register "alice" "pw" "a@x.com"] _ hmem⟩

/-- C2: starting from the empty database, after any sequence of requests no
two persisted `User` records share a username and no two share an email. -/
theorem c2_username_email_unique (hash : String → String) (ops : List Op) :
    ((runOps hash ops []).map User.username).Nodup ∧
      ((runOps hash ops []).map User.email).Nodup :=
  runOps_unique hash ops [] ⟨List.nodup_nil, List.nodup_nil⟩

/-- C3 (amended): `POST /register` fails with 400 "Username already taken" if
and only if a record with the requested username exists, and then the records
are unchanged; otherwise, when the email is also fresh, it creates exactly one
new record (username and email as given, password hashed, fresh id) and
returns "User registered successfully"; when the email is already taken the
database layer rejects the insert instead and the records are unchanged. -/
theorem c3_register (hash : String → String)
    (username password email : String) (db : DB) (hdb : uniqueDB db) :
    (register_user hash username password email db
          = .error ⟨400, "Username already taken"⟩
        ↔ ∃ u ∈ db, u.username = username) ∧
      ((∃ u ∈ db, u.username = username) →
        runOp hash db (.register username password email) = db) ∧
      ((∀ u ∈ db, u.username ≠ username) → (∀ u ∈ db, u.email ≠ email) →
        register_user hash username password email db
          = .ok (db ++ [⟨nextId db, username, email, hash password⟩],
              "User registered successfully")) ∧
      ((∀ u ∈ db, u.username ≠ username) → (∃ u ∈ db, u.email = email) →
        register_user hash username password email db
            = .error ⟨500, "IntegrityError"⟩ ∧
          runOp hash db (.register username password email) = db) := by
  have taken_iff : register_user hash username password email db
      = .error ⟨400, "Username already taken"⟩ ↔ ∃ u ∈ db, u.username = username := by
    constructor
    · intro h
      unfold register_user at h
      cases hq : queryFirst (fun u => u.username == username) db with
      | none =>
        rw [hq] at h
        dsimp only at h
        cases hc : dbCommit
            (db ++ [⟨nextId db, username, email, hash password⟩]) with
        | ok db2 => rw [hc] at h; exact Except.noConfusion h
        | error e =>
          rw [hc] at h
          obtain ⟨rfl, -⟩ := dbCommit_error hc
          injection h with h
          injection h with h1 h2
          exact absurd h1 (by decide)
      | some u =>
        refine ⟨u, List.mem_of_find?_eq_some hq, ?_⟩
        have := List.find?_some hq
        simpa only [beq_iff_eq] using this
    · rintro ⟨u, hu, he⟩
      obtain ⟨w, hq⟩ : ∃ w, queryFirst (fun v => v.username == username) db
          = some w := by
        cases hqq : queryFirst (fun v => v.username == username) db with
        | some w => exact ⟨w, rfl⟩
        | none =>
          have := List.find?_eq_none.mp hqq u hu
          exact absurd (by simpa only [beq_iff_eq] using he) this
      unfold register_user
      rw [hq]
  refine ⟨taken_iff, fun hex => runOp_register_err (taken_iff.mpr hex), ?_, ?_⟩
  · intro hnou hnoe
    have hqnone : queryFirst (fun v => v.username == username) db = none :=
      List.find?_eq_none.mpr
        (fun x hx => by simpa only [beq_iff_eq] using hnou x hx)
    have huniq :
        uniqueDB (db ++ [⟨nextId db, username, email, hash password⟩]) := by
      constructor
      · rw [List.map_append]
        dsimp only [List.map]
        rw [nodup_append_singleton]
        refine ⟨hdb.1, fun hmem => ?_⟩
        rcases List.mem_map.mp hmem with ⟨x, hx, hxe⟩
        exact hnou x hx hxe
      · rw [List.map_append]
        dsimp only [List.map]
        rw [nodup_append_singleton]
        refine ⟨hdb.2, fun hmem => ?_⟩
        rcases List.mem_map.mp hmem with ⟨x, hx, hxe⟩
        exact hnoe x hx hxe
    unfold register_user
    rw [hqnone]
    dsimp only
    rw [dbCommit_of_unique huniq]
  · rintro hnou ⟨u, hu, he⟩
    have hqnone : queryFirst (fun v => v.username == username) db = none :=
      List.find?_eq_none.mpr
        (fun x hx => by simpa only [beq_iff_eq] using hnou x hx)
    have hnotuniq :
        ¬ uniqueDB (db ++ [⟨nextId db, username, email, hash password⟩]) := by
      rintro ⟨-, hem⟩
      rw [List.map_append] at hem
      dsimp only [List.map] at hem
      rw [nodup_append_singleton] at hem
      exact hem.2 (he ▸ List.mem_map_of_mem User.email hu)
    have h500 : register_user hash username password email db
        = .error ⟨500, "IntegrityError"⟩ := by
      unfold register_user
      rw [hqnone]
      dsimp only
      rw [dbCommit_of_not_unique hnotuniq]
    exact ⟨h500, runOp_register_err h500⟩

/-- C3, refuted as stated: with only the user "alice" (email "a@x.com")
persisted, a register request for the fresh username "bob" with the same email
"a@x.com" is not in the 400 "Username already taken" case (no record has
username "bob"), yet it does not create a record and does not return
"User registered successfully" — the database layer rejects the insert. -/
theorem c3_counterexample :
    queryFirst (fun u => u.username == "bob")
        [⟨1, "alice", "a@x.com", "hp"⟩] = none ∧
      register_user exHash "bob" "pw" "a@x.com" [⟨1, "alice", "a@x.com", "hp"⟩]
        = .error ⟨500, "IntegrityError"⟩ :=
  ⟨rfl, rfl⟩

theorem c3_register_witness :
    uniqueDB [⟨1, "alice", "a@x.com", "hp"⟩] ∧
      register_user exHash "bob" "pw" "b@x.com" [⟨1, "alice", "a@x.com", "hp"⟩]
        = .ok ([⟨1, "alice", "a@x.com", "hp"⟩,
            ⟨2, "bob", "b@x.com", exHash "pw"⟩], "User registered successfully") := by
  refine ⟨by decide, ?_⟩
  have h := (c3_register exHash "bob" "pw" "b@x.com"
      [⟨1, "alice", "a@x.com", "hp"⟩] (by decide)).2.2.1 (by decide) (by decide)
  exact h

/-- C4: `POST /login` succeeds with "Login successful" and the matched user's
id exactly when a persisted record carries the given email and the verifier
accepts the password against its stored hash; otherwise it answers
401 "Invalid credentials"; the database is unchanged in every case. -/
theorem c4_login (verify : String → String → Bool) (email password : String)
    (db : DB) (hem : (db.map User.email).Nodup) :
    ((∃ u ∈ db, u.email = email ∧ verify password u.password = true) →
        ∃ u ∈ db, u.email = email ∧ verify password u.password = true ∧
          login_user verify email password db
            = .ok ("Login successful", u.id)) ∧
      ((∀ u ∈ db, u.email = email → verify password u.password = false) →
        login_user verify email password db
          = .error ⟨401, "Invalid credentials"⟩) ∧
      (∀ hash, runOp hash db (.login email password) = db) := by
  refine ⟨?_, ?_, fun hash => rfl⟩
  · rintro ⟨u, hu, he, hv⟩
    subst he
    refine ⟨u, hu, rfl, hv, ?_⟩
    unfold login_user queryFirst
    rw [find?_key_of_nodup User.email hem hu]
    dsimp only
    rw [if_pos hv]
  · intro hall
    unfold login_user
    cases hq : queryFirst (fun v => v.email == email) db with
    | none => rfl
    | some u =>
      have hmem := List.mem_of_find?_eq_some hq
      have heq : u.email = email := by
        have := List.find?_some hq
        simpa only [beq_iff_eq] using this
      dsimp only
      rw [if_neg (by rw [hall u hmem heq]; simp)]

theorem c4_witness :
    (([⟨1, "alice", "a@x.com", exHash "pw"⟩] : DB).map User.email).Nodup ∧
      ∃ u ∈ ([⟨1, "alice", "a@x.com", exHash "pw"⟩] : DB),
        u.email = "a@x.com" ∧ exVerify "pw" u.password = true ∧
          login_user exVerify "a@x.com" "pw"
              [⟨1, "alice", "a@x.com", exHash "pw"⟩]
            = .ok ("Login successful", u.id) :=
  ⟨by decide, (c4_login exVerify "a@x.com" "pw" _ (by decide)).1 (by decide)⟩

/-- C5 is refuted by the code: `POST /logout` does answer the client with
status 200 and body "Logged out successfully", but that response carries no
cookie-deletion header — `delete_cookie` was applied to the local
`RedirectResponse` that the handler then discards (last conjunct: the
discarded response is the one carrying the deletion). -/
theorem c5_logout_loses_cookie_deletion :
    (logout_user []).2.status = 200 ∧
      (logout_user []).2.message = "Logged out successfully" ∧
      (logout_user []).2.deletedCookies = [] ∧
      (delete_cookie (RedirectResponse "/Blueprint")
          "access_token").deletedCookies = ["access_token"] :=
  ⟨rfl, rfl, rfl, rfl⟩

/-- C6: for every positive `user_id`, `GET /users/{user_id}` returns the
persisted record with that id when one exists (with pairwise distinct primary
keys that record is unique), answers 404 "User not found" when none does, and
never changes the database. -/
theorem c6_get_user (user_id : Nat) (db : DB) (hpos : 0 < user_id)
    (hid : (db.map User.id).Nodup) :
    (∀ u ∈ db, u.id = user_id → get_user user_id db = .ok u) ∧
      ((∀ u ∈ db, u.id ≠ user_id) →
        get_user user_id db = .error ⟨404, "User not found"⟩) ∧
      (∀ hash, runOp hash db (.getUser user_id) = db) := by
  refine ⟨?_, ?_, fun hash => rfl⟩
  · intro u hu he
    subst he
    unfold get_user queryFirst
    rw [find?_key_of_nodup User.id hid hu]
  · intro hall
    have hq : queryFirst (fun u => u.id == user_id) db = none :=
      List.find?_eq_none.mpr
        (fun x hx => by simpa only [beq_iff_eq] using hall x hx)
    unfold get_user
    rw [hq]

theorem c6_witness :
    0 < 1 ∧
      (([⟨1, "alice", "a@x.com", "hp"⟩] : DB).map User.id).Nodup ∧
      get_user 1 [⟨1, "alice", "a@x.com", "hp"⟩]
        = .ok ⟨1, "alice", "a@x.com", "hp"⟩ :=
  ⟨by decide, by decide,
    (c6_get_user 1 _ (by decide) (by decide)).1 _ (by decide) rfl⟩

/-- C7: with pairwise distinct primary keys, `DELETE /users/{user_id}` removes
exactly the record with that id when it exists — afterwards no record with the
id remains and every other record is unchanged (the table is the original one
filtered on `id ≠ user_id`) — and returns "User deleted successfully"; when no
such record exists it answers 404 "User not found" and the table is
unchanged. -/
theorem c7_delete_user (user_id : Nat) (db : DB)
    (hid : (db.map User.id).Nodup) :
    ((∃ u ∈ db, u.id = user_id) →
        delete_user user_id db
            = .ok (db.filter (fun v => !(v.id == user_id)),
                "User deleted successfully") ∧
          (∀ v ∈ db.filter (fun v => !(v.id == user_id)), v.id ≠ user_id) ∧
          (∀ hash, runOp hash db (.delete user_id)
            = db.filter (fun v => !(v.id == user_id)))) ∧
      ((∀ u ∈ db, u.id ≠ user_id) →
        delete_user user_id db = .error ⟨404, "User not found"⟩ ∧
          ∀ hash, runOp hash db (.delete user_id) = db) := by
  constructor
  · rintro ⟨u, hu, he⟩
    subst he
    have hq : queryFirst (fun v => v.id == u.id) db = some u :=
      find?_key_of_nodup User.id hid hu
    have hdel : delete_user u.id db
        = .ok (List.eraseP (fun v => v.id == u.id) db,
            "User deleted successfully") := by
      unfold delete_user
      rw [hq]
    rw [eraseP_eq_filter hid] at hdel
    refine ⟨hdel, ?_, fun hash => by simp only [runOp, hdel]⟩
    intro v hv
    have hmem := List.mem_filter.mp hv
    simpa using hmem.2
  · intro hall
    have hq : queryFirst (fun v => v.id == user_id) db = none :=
      List.find?_eq_none.mpr
        (fun x hx => by simpa only [beq_iff_eq] using hall x hx)
    have herr : delete_user user_id db = .error ⟨404, "User not found"⟩ := by
      unfold delete_user
      rw [hq]
    exact ⟨herr, fun hash => runOp_delete_err herr⟩

theorem c7_witness :
    (([⟨1, "alice", "a@x.com", "h1"⟩, ⟨2, "bob", "b@x.com", "h2"⟩] : DB).map
        User.id).Nodup ∧
      (∃ u ∈ ([⟨1, "alice", "a@x.com", "h1"⟩,
          ⟨2, "bob", "b@x.com", "h2"⟩] : DB), u.id = 1) ∧
      delete_user 1 [⟨1, "alice", "a@x.com", "h1"⟩, ⟨2, "bob", "b@x.com", "h2"⟩]
        = .ok ([⟨2, "bob", "b@x.com", "h2"⟩], "User deleted successfully") := by
  refine ⟨by decide, by decide, ?_⟩
  have h := ((c7_delete_user 1
      [⟨1, "alice", "a@x.com", "h1"⟩, ⟨2, "bob", "b@x.com", "h2"⟩]
      (by decide)).1 (by decide)).1
  exact h

/-- C8: a successful PUT or PATCH replaces exactly the row with the given id
by its conditional update and leaves every other row unchanged (the resulting
table is a pointwise map that is the identity away from `user_id`); the
conditional update touches only supplied fields: an omitted (`None`) field
keeps its previous value, a supplied username or email is written verbatim and
a supplied password is written as its hash (under PUT, provided the supplied
string is non-empty), and the id is never changed. -/
theorem c8_update_frame (hash : String → String) (user_id : Nat)
    (p : UserUpdate) (db : DB) (hid : (db.map User.id).Nodup) :
    (∀ db2 ret, update_user hash user_id p db = .ok (db2, ret) →
        db2 = db.map
          (fun v => if v.id == user_id then applyPut hash v p else v)) ∧
      (∀ db2 ret, partial_update_user hash user_id p db = .ok (db2, ret) →
        db2 = db.map
          (fun v => if v.id == user_id then applyPatch hash v p else v)) ∧
      (∀ u,
        (applyPut hash u p).id = u.id ∧ (applyPatch hash u p).id = u.id ∧
          (p.username = none → (applyPut hash u p).username = u.username ∧
            (applyPatch hash u p).username = u.username) ∧
          (p.email = none → (applyPut hash u p).email = u.email ∧
            (applyPatch hash u p).email = u.email) ∧
          (p.password = none → (applyPut hash u p).password = u.password ∧
            (applyPatch hash u p).password = u.password) ∧
          (∀ s, p.username = some s → (applyPatch hash u p).username = s ∧
            (s ≠ "" → (applyPut hash u p).username = s)) ∧
          (∀ s, p.email = some s → (applyPatch hash u p).email = s ∧
            (s ≠ "" → (applyPut hash u p).email = s)) ∧
          (∀ s, p.password = some s →
            (applyPatch hash u p).password = hash s ∧
            (s ≠ "" → (applyPut hash u p).password = hash s))) := by
  refine ⟨?_, ?_, ?_⟩
  · intro db2 ret h
    obtain ⟨rfl, -, -⟩ := update_user_ok h
    exact updateFirst_eq_map hid
  · intro db2 ret h
    obtain ⟨rfl, -, -⟩ := partial_update_user_ok h
    exact updateFirst_eq_map hid
  · intro u
    refine ⟨applyPut_id hash u p, applyPatch_id hash u p, ?_, ?_, ?_, ?_, ?_,
      ?_⟩
    · intro h
      exact ⟨by simp [applyPut_username, h], by simp [applyPatch_username, h]⟩
    · intro h
      exact ⟨by simp [applyPut_email, h], by simp [applyPatch_email, h]⟩
    · intro h
      exact ⟨by simp [applyPut_password, h], by simp [applyPatch_password, h]⟩
    · intro s h
      refine ⟨by simp [applyPatch_username, h], fun hs => ?_⟩
      rw [applyPut_username, h]
      dsimp only
      rw [if_neg (by simpa using hs)]
    · intro s h
      refine ⟨by simp [applyPatch_email, h], fun hs => ?_⟩
      rw [applyPut_email, h]
      dsimp only
      rw [if_neg (by simpa using hs)]
    · intro s h
      refine ⟨by simp [applyPatch_password, h], fun hs => ?_⟩
      rw [applyPut_password, h]
      dsimp only
      rw [if_neg (by simpa using hs)]

theorem c8_witness :
    (([⟨1, "alice", "a@x.com", "h1"⟩, ⟨2, "bob", "b@x.com", "h2"⟩] : DB).map
        User.id).Nodup ∧
      update_user exHash 1 ⟨some "carol", none, some "npw"⟩
          [⟨1, "alice", "a@x.com", "h1"⟩, ⟨2, "bob", "b@x.com", "h2"⟩]
        = .ok ([⟨1, "carol", "a@x.com", exHash "npw"⟩,
              ⟨2, "bob", "b@x.com", "h2"⟩],
            ⟨1, "carol", "a@x.com", exHash "npw"⟩) ∧
      ([⟨1, "carol", "a@x.com", exHash "npw"⟩, ⟨2, "bob", "b@x.com", "h2"⟩]
          : DB)
        = ([⟨1, "alice", "a@x.com", "h1"⟩, ⟨2, "bob", "b@x.com", "h2"⟩] : DB).map
            (fun v => if v.id == 1
              then applyPut exHash v ⟨some "carol", none, some "npw"⟩ else v) := by
  refine ⟨by decide, rfl, ?_⟩
  exact (c8_update_frame exHash 1 ⟨some "carol", none, some "npw"⟩
      [⟨1, "alice", "a@x.com", "h1"⟩, ⟨2, "bob", "b@x.com", "h2"⟩]
      (by decide)).1 _ _ rfl

/-- C9: no live route creates, modifies, or deletes an Itinerary record: the
itineraries table after any request equals the one before it (the
itinerary-generation route is commented out). -/
theorem c9_itineraries_untouched (hash : String → String) (s : AppState)
    (op : Op) : (appStep hash s op).itineraries = s.itineraries :=
  rfl

/-- C10: on payloads whose supplied fields are all non-empty, PUT and PATCH
behave identically (same response, same resulting table); they differ exactly
on a supplied empty string, which PUT ignores (the field keeps its value) and
PATCH applies (writing "" verbatim, and for the password the hash of ""). -/
theorem c10_put_patch_agree (hash : String → String) (user_id : Nat)
    (p : UserUpdate) (db : DB) (u : User) :
    ((p.username ≠ some "" ∧ p.email ≠ some "" ∧ p.password ≠ some "") →
        update_user hash user_id p db = partial_update_user hash user_id p db) ∧
      (p.username = some "" → (applyPut hash u p).username = u.username ∧
        (applyPatch hash u p).username = "") ∧
      (p.email = some "" → (applyPut hash u p).email = u.email ∧
        (applyPatch hash u p).email = "") ∧
      (p.password = some "" → (applyPut hash u p).password = u.password ∧
        (applyPatch hash u p).password = hash "") := by
  refine ⟨?_, ?_, ?_, ?_⟩
  · rintro ⟨h1, h2, h3⟩
    have hfun : (fun v => applyPut hash v p) = (fun v => applyPatch hash v p) :=
      funext fun v => applyPut_eq_applyPatch hash v p h1 h2 h3
    unfold update_user partial_update_user
    cases hq : queryFirst (fun v => v.id == user_id) db with
    | none => rfl
    | some w =>
      dsimp only
      rw [hfun, applyPut_eq_applyPatch hash w p h1 h2 h3]
  · intro h
    exact ⟨by simp [applyPut_username, h], by simp [applyPatch_username, h]⟩
  · intro h
    exact ⟨by simp [applyPut_email, h], by simp [applyPatch_email, h]⟩
  · intro h
    exact ⟨by simp [applyPut_password, h], by simp [applyPatch_password, h]⟩

theorem c10_witness :
    update_user exHash 1 ⟨some "carolx", none, none⟩
          [⟨1, "alice", "a@x.com", "hp"⟩]
        = partial_update_user exHash 1 ⟨some "carolx", none, none⟩
            [⟨1, "alice", "a@x.com", "hp"⟩] ∧
      ((applyPut exHash ⟨1, "alice", "a@x.com", "hp"⟩
            ⟨some "", some "", some ""⟩).username = "alice" ∧
        (applyPatch exHash ⟨1, "alice", "a@x.com", "hp"⟩
            ⟨some "", some "", some ""⟩).username = "") ∧
      ((applyPut exHash ⟨1, "alice", "a@x.com", "hp"⟩
            ⟨some "", some "", some ""⟩).email = "a@x.com" ∧
        (applyPatch exHash ⟨1, "alice", "a@x.com", "hp"⟩
            ⟨some "", some "", some ""⟩).email = "") ∧
      ((applyPut exHash ⟨1, "alice", "a@x.com", "hp"⟩
            ⟨some "", some "", some ""⟩).password = "hp" ∧
        (applyPatch exHash ⟨1, "alice", "a@x.com", "hp"⟩
            ⟨some "", some "", some ""⟩).password = exHash "") :=
  ⟨(c10_put_patch_agree exHash 1 ⟨some "carolx", none, none⟩
        [⟨1, "alice", "a@x.com", "hp"⟩] ⟨1, "alice", "a@x.com", "hp"⟩).1
      ⟨by decide, by decide, by decide⟩,
    (c10_put_patch_agree exHash 1 ⟨some "", some "", some ""⟩
        [⟨1, "alice", "a@x.com", "hp"⟩] ⟨1, "alice", "a@x.com", "hp"⟩).2.1 rfl,
    (c10_put_patch_agree exHash 1 ⟨some "", some "", some ""⟩
        [⟨1, "alice", "a@x.com", "hp"⟩] ⟨1, "alice", "a@x.com", "hp"⟩).2.2.1 rfl,
    (c10_put_patch_agree exHash 1 ⟨some "", some "", some ""⟩
        [⟨1, "alice", "a@x.com", "hp"⟩] ⟨1, "alice", "a@x.com", "hp"⟩).2.2.2 rfl⟩

end FullStack
